import Mathlib

/-!  A shallow embedding of `custom.py`, the functorch custom-vjp prototype:
an interpreter stack of transform layers, a `TransformableOperator` that
dispatches on the topmost layer kind, scoped stack suspension/restoration
(`pop_stack` / `push_stack`), a per-level differentiation-boundary generator
(`generate_autograd_function`), the three transform rules (torch / vmap /
grad), and the example operator `MySin`.

Scalars are drawn from an arbitrary commutative ring `R`; the opaque compute
backend's `sin`/`cos` are abstract functions bundled in `Backend`.  External
collaborators that are not part of the source file (the `functorch._C` stack
primitives, `torch.autograd.Function.apply`, `functorch.grad`,
`functorch.vmap`, `torch.enable_grad`) are modelled from the spec's interface
descriptions; each such definition carries a doc comment saying so.  -/

namespace CustomVJP

/-- Failure kinds surfaced by the embedded program: `EmptyStackError` from the
stack primitives, the dispatch failure (`RuntimeError` naming the operator and
the unhandled kind, spec: `UnhandledTransformError`), the vmap rule's
`assert` failures, Python `TypeError` from calling a rule body with the wrong
operand shape, the fatal flat-count mismatch of the batched side channel, and
fuel exhaustion (an artifact of bounding the recursive dispatch). -/
inductive Err where
  | emptyStack
  | unhandledTransform (opName : String) (kind : String)
  | assertionError
  | typeError
  | mismatch
  | outOfFuel
deriving Repr, DecidableEq

/-- One entry of the functorch dynamic-layer (interpreter) stack: a transform
kind and its numeric level, as returned by `_C.top_layer()`. -/
structure Layer where
  kind : String
  level : Nat
deriving Repr, DecidableEq

/-- The process-wide mutable interpreter state: the dynamic-layer stack (head =
top), the autograd-enabled flag toggled by `torch.enable_grad()`, and the
`nonlocal side_channel` cell of `custom_vjp_vmap` (a list of batch dims, one
per flattened forward output leaf). -/
structure St where
  stack : List Layer
  gradEnabled : Bool
  sideChannel : Option (List Nat)
deriving Repr, DecidableEq

/-- State-and-error monad for the embedded Python: exceptions propagate while
mutations to the process-wide interpreter state persist, so a computation
returns the (possibly error) outcome together with the final state. -/
def M (α : Type) : Type := St → Except Err α × St

instance : Monad M where
  pure a := fun s => (Except.ok a, s)
  bind m f := fun s =>
    match m s with
    | (Except.ok a, s') => f a s'
    | (Except.error e, s') => (Except.error e, s')

/-- Raise an exception, leaving the state as it is. -/
def throwM {α : Type} (e : Err) : M α := fun s => (Except.error e, s)

/-- Modelled from the spec: `_C.are_transforms_active()` — true iff the
dynamic-layer stack is non-empty. -/
def are_transforms_active : M Bool := fun s => (Except.ok (!s.stack.isEmpty), s)

/-- Modelled from the spec: `_C.top_layer()` — the (kind, level) of the top
layer; `EmptyStackError` when no transform is active. -/
def top_layer : M Layer := fun s =>
  match s.stack with
  | [] => (Except.error Err.emptyStack, s)
  | l :: _ => (Except.ok l, s)

/-- Modelled from the spec: `_C.popTop()` — remove and return the top layer;
`EmptyStackError` when the stack is empty. -/
def popTop : M Layer := fun s =>
  match s.stack with
  | [] => (Except.error Err.emptyStack, s)
  | l :: rest => (Except.ok l, { s with stack := rest })

/-- Modelled from the spec: `_C.pushTop(dl)` — push the given layer back and
return its level (restoring re-pushes the very same layer). -/
def pushTop (dl : Layer) : M Nat := fun s =>
  (Except.ok dl.level, { s with stack := dl :: s.stack })

/-- `pop_stack` (custom.py:36-42): scoped "temporarily remove top" — pops on
entry, hands the popped layer to the body, and re-pushes the same layer on
every exit path (the `finally` block), error or not. -/
def pop_stack {α : Type} (body : Layer → M α) : M α := fun s =>
  match popTop s with
  | (Except.error e, s') => (Except.error e, s')
  | (Except.ok dl, s') =>
    match body dl s' with
    | (r, s'') => (r, (pushTop dl s'').2)

/-- `push_stack` (custom.py:45-51): scoped "temporarily push" — pushes the
given layer on entry, hands the assigned level to the body, and pops on every
exit path (the `finally` block). -/
def push_stack {α : Type} (dl : Layer) (body : Nat → M α) : M α := fun s =>
  match pushTop dl s with
  | (_, s₁) =>
    match body dl.level s₁ with
    | (r, s₂) =>
      match popTop s₂ with
      | (Except.ok _, s₃) => (r, s₃)
      | (Except.error e, s₃) => (Except.error e, s₃)

/-- `get_topmost_layer` (custom.py:11-17): the current transform kind —
`"torch"` when no transform is active or when the top layer's kind is the
empty string, otherwise the top layer's kind. -/
def get_topmost_layer : M String := do
  let active ← are_transforms_active
  if !active then
    pure "torch"
  else
    let l ← top_layer
    if l.kind = "" then pure "torch" else pure l.kind

/-- Modelled from the spec: `torch.enable_grad()` — an explicitly
differentiable evaluation context; sets the autograd-enabled flag for the
scope and restores it on exit. -/
def enable_grad {α : Type} (body : M α) : M α := fun s =>
  match body { s with gradEnabled := true } with
  | (r, s') => (r, { s' with gradEnabled := s.gradEnabled })

/-- Write the vmap rule's `nonlocal side_channel` cell. -/
def setSideChannel (l : Option (List Nat)) : M Unit := fun s =>
  (Except.ok (), { s with sideChannel := l })

/-- Read the vmap rule's `nonlocal side_channel` cell. -/
def getSideChannel : M (Option (List Nat)) := fun s =>
  (Except.ok s.sideChannel, s)

/-- The opaque compute backend (out of scope per the spec): elementwise `sin`
and its derivative `cos` as abstract functions on the scalar type. -/
structure Backend (R : Type) where
  sinFn : R → R
  cosFn : R → R

/-- A tensor value as the transforms see it: a scalar, a rank-1 tensor, a
batched tensor (a value carrying a batch-dimension tag at a vmap level), or a
grad-tracked wrapper at a grad level (primal together with its derivative
with respect to that level's input — the engine-side record of reverse-mode
connectivity, which for the scalar chains of this program carries the same
information as the reverse-mode tape). -/
inductive V (R : Type) where
  | scalar (r : R)
  | vec (xs : List R)
  | batched (level : Nat) (bdim : Nat) (inner : V R)
  | dual (level : Nat) (primal : V R) (tangent : V R)
deriving Repr, DecidableEq

/-- Structural size of a value's wrapper nesting, used as fuel for the
elementwise arithmetic so it stays a structurally recursive (hence
kernel-reducible) definition. -/
def vsize {R : Type} : V R → Nat
  | V.scalar _ => 1
  | V.vec _ => 1
  | V.batched _ _ v => vsize v + 1
  | V.dual _ p t => vsize p + vsize t + 1

/-- Fueled elementwise addition: the outermost (highest-level) wrapper
distributes over the other operand; scalars broadcast over rank-1 tensors;
adding a value not tracked at a dual's level leaves the tangent unchanged. -/
def vaddGo {R : Type} [CommRing R] : Nat → V R → V R → V R
  | 0, a, _ => a
  | n+1, a, b =>
    match a, b with
    | V.dual l p t, V.dual l' p' t' =>
      if l = l' then V.dual l (vaddGo n p p') (vaddGo n t t')
      else if l' < l then V.dual l (vaddGo n p (V.dual l' p' t')) t
      else V.dual l' (vaddGo n (V.dual l p t) p') t'
    | V.dual l p t, c => V.dual l (vaddGo n p c) t
    | c, V.dual l p t => V.dual l (vaddGo n c p) t
    | V.batched l d v, V.batched l' d' w =>
      if l = l' then V.batched l d (vaddGo n v w)
      else if l' < l then V.batched l d (vaddGo n v (V.batched l' d' w))
      else V.batched l' d' (vaddGo n (V.batched l d v) w)
    | V.batched l d v, c => V.batched l d (vaddGo n v c)
    | c, V.batched l d v => V.batched l d (vaddGo n c v)
    | V.scalar x, V.scalar y => V.scalar (x + y)
    | V.scalar x, V.vec ys => V.vec (ys.map (fun y => x + y))
    | V.vec xs, V.scalar y => V.vec (xs.map (fun x => x + y))
    | V.vec xs, V.vec ys => V.vec (List.zipWith (fun x y => x + y) xs ys)

/-- Elementwise addition of backend values. -/
def vadd {R : Type} [CommRing R] (a b : V R) : V R := vaddGo (vsize a + vsize b) a b

/-- Fueled elementwise multiplication: at a shared dual level the product rule
applies; a value not tracked at a dual's level acts as a constant factor;
batched values multiply elementwise; scalars broadcast. -/
def vmulGo {R : Type} [CommRing R] : Nat → V R → V R → V R
  | 0, a, _ => a
  | n+1, a, b =>
    match a, b with
    | V.dual l p t, V.dual l' p' t' =>
      if l = l' then
        V.dual l (vmulGo n p p') (vadd (vmulGo n t p') (vmulGo n p t'))
      else if l' < l then
        V.dual l (vmulGo n p (V.dual l' p' t')) (vmulGo n t (V.dual l' p' t'))
      else
        V.dual l' (vmulGo n (V.dual l p t) p') (vmulGo n (V.dual l p t) t')
    | V.dual l p t, c => V.dual l (vmulGo n p c) (vmulGo n t c)
    | c, V.dual l p t => V.dual l (vmulGo n c p) (vmulGo n c t)
    | V.batched l d v, V.batched l' d' w =>
      if l = l' then V.batched l d (vmulGo n v w)
      else if l' < l then V.batched l d (vmulGo n v (V.batched l' d' w))
      else V.batched l' d' (vmulGo n (V.batched l d v) w)
    | V.batched l d v, c => V.batched l d (vmulGo n v c)
    | c, V.batched l d v => V.batched l d (vmulGo n c v)
    | V.scalar x, V.scalar y => V.scalar (x * y)
    | V.scalar x, V.vec ys => V.vec (ys.map (fun y => x * y))
    | V.vec xs, V.scalar y => V.vec (xs.map (fun x => x * y))
    | V.vec xs, V.vec ys => V.vec (List.zipWith (fun x y => x * y) xs ys)

/-- Elementwise multiplication of backend values. -/
def vmul {R : Type} [CommRing R] (a b : V R) : V R := vmulGo (vsize a + vsize b) a b

/-- Fueled elementwise trigonometric map (`true` = sin, `false` = cos),
structure-preserving on wrappers, with the chain rule on grad-tracked
values: `d sin = cos`, `d cos = -sin`. -/
def vtrigGo {R : Type} [CommRing R] (B : Backend R) : Nat → Bool → V R → V R
  | 0, _, v => v
  | n+1, useSin, v =>
    match v with
    | V.scalar x => V.scalar (if useSin then B.sinFn x else B.cosFn x)
    | V.vec xs => V.vec (xs.map (fun x => if useSin then B.sinFn x else B.cosFn x))
    | V.batched l d w => V.batched l d (vtrigGo B n useSin w)
    | V.dual l p t =>
      let dp := if useSin then vtrigGo B n false p
                else vmul (V.scalar (-1)) (vtrigGo B n true p)
      V.dual l (vtrigGo B n useSin p) (vmul dp t)

/-- `torch.sin`, elementwise over the backend value. -/
def vsin {R : Type} [CommRing R] (B : Backend R) (v : V R) : V R :=
  vtrigGo B (vsize v) true v

/-- A constant value of the same shape (`torch.ones_like` / `zeros_like`),
stripping grad tracking. -/
def vfill {R : Type} [CommRing R] (c : R) : V R → V R
  | V.scalar _ => V.scalar c
  | V.vec xs => V.vec (xs.map (fun _ => c))
  | V.batched l d v => V.batched l d (vfill c v)
  | V.dual _ p _ => vfill c p

/-- Modelled from the spec: `_C.unpackBatched(x, level)` — split a value
batched at `level` into (bare value, batch dim); a value not batched at that
level is returned as-is with batch dim 0. -/
def unpackBatched {R : Type} (x : V R) (level : Nat) : V R × Nat :=
  match x with
  | V.batched l d v => if l = level then (v, d) else (x, 0)
  | _ => (x, 0)

/-- Modelled from the spec: `_C._add_batch_dim(x, bdim, level)` — wrap a value
with a batch-dimension tag at a vmap level. -/
def add_batch_dim {R : Type} (x : V R) (bdim : Nat) (level : Nat) : V R :=
  V.batched level bdim x

/-- Modelled from the spec: `Tensor.movedim` — the values here are rank-1 per
batch element, so the only movable dimension is the batch one and every move
exercised by the program has equal source and destination, making the move the
identity. -/
def movedim {R : Type} (x : V R) (_fromDim _toDim : Nat) : V R := x

/-- Modelled from the spec: `_C._unwrap_for_grad(x, level)` — strip one level
of grad-tracking wrapping (only a wrapper of exactly that level). -/
def unwrap_for_grad {R : Type} (x : V R) (level : Nat) : V R :=
  match x with
  | V.dual l p _ => if l = level then p else x
  | _ => x

/-- Modelled from the spec: `_C._wrap_for_grad(x, level)` — create a
grad-tracking wrapper at `level`; its differentiable connection to the
boundary's inputs is installed by the engine (see `autograd_apply`). -/
def wrap_for_grad {R : Type} [CommRing R] (x : V R) (level : Nat) : V R :=
  V.dual level x (V.scalar 0)

/-- The derivative record of a value at a grad level (zero when the value is
not tracked at that level). -/
def tangentAt {R : Type} [CommRing R] (level : Nat) : V R → V R
  | V.dual l _ t => if l = level then t else V.scalar 0
  | _ => V.scalar 0

/-- Replace the derivative record of a wrapper at a grad level (engine-side
operation used when connecting boundary outputs to inputs). -/
def setTangent {R : Type} (level : Nat) (x : V R) (t : V R) : V R :=
  match x with
  | V.dual l p _ => if l = level then V.dual l p t else x
  | _ => x

/-- An operand as a Python rule receives it: a tensor value or some other
Python object (distinguished by the vmap rule's `isinstance` assert). -/
inductive PyObj (R : Type) where
  | tensor (v : V R)
  | nonTensor
deriving Repr, DecidableEq

/-- A forward function (`fwd_fn`): variadic operands to (primary result,
saved values).  In this program both are single tensors. -/
abbrev Fwd (R : Type) := List (PyObj R) → M (V R × V R)

/-- A backward function (`bwd_fn`): (grad of primary output, grad of saved
output, saved values) to the operand gradient. -/
abbrev Bwd (R : Type) := V R → V R → V R → M (V R)

/-- A transform rule as registered with the operator: it receives the forward
function, the backward function and the operands. -/
abbrev Rule (R : Type) := Fwd R → Bwd R → List (PyObj R) → M (V R × V R)

/-- `TransformableOperator` (custom.py:20-26): a named operator with a mapping
from transform kind to rule. -/
structure TransformableOperator (R : Type) where
  name : String
  rules_map : String → Option (Rule R)

/-- `TransformableOperator.impl` (custom.py:25-26): register a rule for a
transform kind. -/
def TransformableOperator.impl {R : Type} (op : TransformableOperator R)
    (transform : String) (rule : Rule R) : TransformableOperator R :=
  { op with rules_map := fun k => if k = transform then some rule else op.rules_map k }

/-- `TransformableOperator.__call__` (custom.py:28-33): dispatch — read the
topmost layer kind, fail with the un-handled-transform error naming the
operator and the kind when no rule is registered, otherwise invoke the rule
with the same arguments. -/
def TransformableOperator.call {R : Type} (op : TransformableOperator R)
    (fwd_fn : Fwd R) (bwd_fn : Bwd R) (args : List (PyObj R)) : M (V R × V R) := do
  let dynamic_layer ← get_topmost_layer
  match op.rules_map dynamic_layer with
  | none => throwM (Err.unhandledTransform op.name dynamic_layer)
  | some fn => fn fwd_fn bwd_fn args

/-- The forward/backward pair produced by `generate_autograd_function`; the
forward also returns the flat saved list it stores via
`ctx.save_for_backward` (the saved structure of this program is a single
tensor, so its flattening is the one-element list). -/
structure AutogradFunc (R : Type) where
  forward : List (PyObj R) → M (V R × V R × List (V R))
  backward : List (V R) → V R → V R → M (V R)

/-- `generate_autograd_function` (custom.py:54-101): level 0 builds
`CustomFuncA` — forward invokes `fwd_fn` directly, flattens and stores the
saved values, and returns `(result, saved)`; any other level builds
`CustomFuncB` — forward unwraps one grad level from each operand, re-enters
the dispatch under `pop_stack` inside `torch.enable_grad`, re-wraps result
and saved at this level, flattens and stores the saved values.  Both
backwards reconstruct the saved values from the stored flat list and invoke
`bwd_fn(*args, saved)`. -/
def generate_autograd_function {R : Type} [CommRing R] (callee : Rule R)
    (level : Nat) (fwd_fn : Fwd R) (bwd_fn : Bwd R) : AutogradFunc R :=
  if level = 0 then
    { forward := fun args => do
        let (result, saved) ← fwd_fn args
        pure (result, saved, [saved])
      backward := fun ctx gO gx =>
        match ctx with
        | [saved] => bwd_fn gO gx saved
        | _ => throwM Err.mismatch }
  else
    { forward := fun args => do
        let unwrappedArgs := args.map (fun a =>
          match a with
          | PyObj.tensor x => PyObj.tensor (unwrap_for_grad x level)
          | PyObj.nonTensor => PyObj.nonTensor)
        let rs ← pop_stack (fun _ => enable_grad (callee fwd_fn bwd_fn unwrappedArgs))
        let result := wrap_for_grad rs.1 level
        let saved := wrap_for_grad rs.2 level
        pure (result, saved, [saved])
      backward := fun ctx gO gx =>
        match ctx with
        | [saved] => bwd_fn gO gx saved
        | _ => throwM Err.mismatch }

/-- Modelled from the spec: `torch.autograd.Function.apply` — runs the
generated forward and records the boundary node so that reverse-mode
differentiation later invokes the stored backward with the output gradients
(spec §4.3).  For an operand grad-tracked at `level` this makes the outputs'
derivatives with respect to the input `bwd_fn 1 0 saved` (primary output) and
`bwd_fn 0 1 saved` (saved output), chained with the operand's own derivative
record; the backward runs on the recursively computed saved values, so inner
grad levels see its arithmetic.  At level 0 the node sits in the base autograd
graph and is queried separately (see `autograd_grad_of_sum`). -/
def autograd_apply {R : Type} [CommRing R] (callee : Rule R) (level : Nat)
    (fwd_fn : Fwd R) (bwd_fn : Bwd R) (args : List (PyObj R)) : M (V R × V R) := do
  let F := generate_autograd_function callee level fwd_fn bwd_fn
  let (result, saved, _ctx) ← F.forward args
  if level = 0 then
    pure (result, saved)
  else
    let tx := match args with
      | [PyObj.tensor x] => tangentAt level x
      | _ => V.scalar 0
    let rawSaved := unwrap_for_grad saved level
    let dr ← bwd_fn (V.scalar 1) (V.scalar 0) rawSaved
    let ds ← bwd_fn (V.scalar 0) (V.scalar 1) rawSaved
    pure (setTangent level result (vmul dr tx), setTangent level saved (vmul ds tx))

/-- `custom_vjp_torch` (custom.py:104-107): build the level-0 boundary and
apply it to the operands. -/
def custom_vjp_torch {R : Type} [CommRing R] (callee : Rule R) : Rule R :=
  fun fwd_fn bwd_fn args => autograd_apply callee 0 fwd_fn bwd_fn args

/-- `batch_fwd` (custom.py:121-133), closure-lifted: inside a freshly pushed
copy of the captured vmap layer, re-batch the bare operand at the new level,
run the forward, flatten its results, unpack each flattened leaf at the new
level, record the batch dims in the side channel, and return the
reconstructed bare results. -/
def batch_fwd {R : Type} [CommRing R] (dl : Layer) (bdim : Nat) (f : Fwd R) : Fwd R :=
  fun args =>
    match args with
    | [PyObj.tensor x] =>
      push_stack dl (fun new_level => do
        let xb := add_batch_dim x bdim new_level
        let (r0, r1) ← f [PyObj.tensor xb]
        let (t0, b0) := unpackBatched r0 new_level
        let (t1, b1) := unpackBatched r1 new_level
        setSideChannel (some [b0, b1])
        pure (t0, t1))
    | _ => throwM Err.typeError

/-- `batch_bwd` (custom.py:138-149), closure-lifted: inside a freshly pushed
copy of the captured vmap layer, re-batch the saved operand at the new level,
re-wrap the incoming gradients with the side-channel batch dims at the outer
level (the captured `wrap` of custom.py:135-136), run the backward, unpack its
result at the new level and re-align the batch dimension to the original
operand's. -/
def batch_bwd {R : Type} [CommRing R] (dl : Layer) (bdim level : Nat) (f : Bwd R) : Bwd R :=
  fun gO gx x =>
    push_stack dl (fun new_level => do
      let xb := add_batch_dim x bdim new_level
      let sc ← getSideChannel
      match sc with
      | some [bO, bx] =>
        let gO' := add_batch_dim gO bO level
        let gx' := add_batch_dim gx bx level
        let gx_new ← f gO' gx' xb
        let (t, gb) := unpackBatched gx_new new_level
        pure (movedim t gb bdim)
      | _ => throwM Err.mismatch)

/-- `custom_vjp_vmap` (custom.py:110-152): read the current level, assert a
single tensor operand, unpack it, run the recursive dispatch on the bare value
with the batch-wrapped forward/backward under `pop_stack`, then re-wrap the
results with the side-channel batch dims at the outer level. -/
def custom_vjp_vmap {R : Type} [CommRing R] (callee : Rule R) : Rule R :=
  fun fwd_fn bwd_fn args => do
    let l ← top_layer
    let level := l.level
    match args with
    | [PyObj.tensor x0] =>
      let (x, bdim) := unpackBatched x0 level
      let results ← pop_stack (fun dl => do
        setSideChannel none
        callee (batch_fwd dl bdim fwd_fn) (batch_bwd dl bdim level bwd_fn) [PyObj.tensor x])
      let sc ← getSideChannel
      match sc with
      | some [b0, b1] =>
        pure (add_batch_dim results.1 b0 level, add_batch_dim results.2 b1 level)
      | _ => throwM Err.mismatch
    | _ => throwM Err.assertionError

/-- `custom_vjp_grad` (custom.py:155-161): read the current level, build the
boundary at that level and apply it to the operands. -/
def custom_vjp_grad {R : Type} [CommRing R] (callee : Rule R) : Rule R :=
  fun fwd_fn bwd_fn args => do
    let l ← top_layer
    autograd_apply callee l.level fwd_fn bwd_fn args

/-- The registered operator (custom.py:164-167), parameterized by the callee
used for its recursive re-entries. -/
def custom_vjp_op {R : Type} [CommRing R] (callee : Rule R) : TransformableOperator R :=
  (((TransformableOperator.mk "custom_vjp" (fun _ => none)).impl
      "torch" (custom_vjp_torch callee)).impl
      "vmap" (custom_vjp_vmap callee)).impl
      "grad" (custom_vjp_grad callee)

/-- The recursive dispatch `custom_vjp(fwd_fn, bwd_fn, *args)`, with fuel
bounding the recursion depth (each nesting level consumes one unit). -/
def custom_vjp {R : Type} [CommRing R] : Nat → Rule R
  | 0 => fun _ _ _ => throwM Err.outOfFuel
  | n+1 => fun fwd_fn bwd_fn args => (custom_vjp_op (custom_vjp n)).call fwd_fn bwd_fn args

/-- `f_fwd` (custom.py:174-176): `(sin x, x)`. -/
def f_fwd {R : Type} [CommRing R] (B : Backend R) : Fwd R := fun args =>
  match args with
  | [PyObj.tensor x] => pure (vsin B x, x)
  | _ => throwM Err.typeError

/-- `f_bwd` (custom.py:179-181): `gO * 2 * x + gx` — deliberately not the
cosine rule. -/
def f_bwd {R : Type} [CommRing R] : Bwd R := fun gO gx x =>
  pure (vadd (vmul (vmul gO (V.scalar 2)) x) gx)

/-- `MySin` (custom.py:184): the composed operator, keeping only the primary
result (`[0]`). -/
def MySin {R : Type} [CommRing R] (B : Backend R) (fuel : Nat) (x : V R) : M (V R) := do
  let p ← custom_vjp fuel (f_fwd B) f_bwd [PyObj.tensor x]
  pure p.1

/-- Modelled from the spec: `functorch.grad` — enter a Differentiated layer at
the next level, track the input, run the function, read off the derivative of
the output with respect to the input, and leave the layer on every exit
path. -/
def functorch_grad {R : Type} [CommRing R] (f : V R → M (V R)) (x : V R) : M (V R) := fun s =>
  let lvl := s.stack.length + 1
  match f (V.dual lvl x (V.scalar 1)) { s with stack := Layer.mk "grad" lvl :: s.stack } with
  | (Except.ok y, s') => (Except.ok (tangentAt lvl y), { s' with stack := s'.stack.tail })
  | (Except.error e, s') => (Except.error e, { s' with stack := s'.stack.tail })

/-- Modelled from the spec: `functorch.vmap` — enter a Batched layer at the
next level, batch the vector input along dimension 0, run the function, strip
the batching from the output, and leave the layer on every exit path. -/
def functorch_vmap {R : Type} [CommRing R] (f : V R → M (V R)) (xs : List R) : M (List R) := fun s =>
  let lvl := s.stack.length + 1
  match f (V.batched lvl 0 (V.vec xs)) { s with stack := Layer.mk "vmap" lvl :: s.stack } with
  | (Except.ok y, s') =>
    (match unpackBatched y lvl with
     | (V.vec ys, _) => (Except.ok ys, { s' with stack := s'.stack.tail })
     | _ => (Except.error Err.typeError, { s' with stack := s'.stack.tail }))
  | (Except.error e, s') => (Except.error e, { s' with stack := s'.stack.tail })

/-- The quiescent process state: empty stack, autograd-enabled flag off, no
side channel. -/
def s0 : St := { stack := [], gradEnabled := false, sideChannel := none }

/-- Spec §4.3, nested case (level > 0), written from the spec's words: the
boundary's forward pass must (a) strip one level of transform-wrapping from
each operand, (b) temporarily remove the top stack layer, (c) re-enter the
Transformable Operator dispatch recursively with the unwrapped operands
inside an explicitly-differentiable evaluation context, (d) re-wrap both the
primary result and the auxiliary saved values with this level's transform
tag, (e) flatten and store the saved values, and return the wrapped primary
result (here alongside the stored flat list, which the source keeps in
`ctx`). -/
def boundary_forward_spec {R : Type} [CommRing R] (callee : Rule R) (level : Nat)
    (fwd_fn : Fwd R) (bwd_fn : Bwd R) (args : List (PyObj R)) :
    M (V R × V R × List (V R)) := do
  let bare := args.map (fun a =>
    match a with
    | PyObj.tensor x => PyObj.tensor (unwrap_for_grad x level)
    | PyObj.nonTensor => PyObj.nonTensor)
  let rs ← pop_stack (fun _ => enable_grad (callee fwd_fn bwd_fn bare))
  let wrappedResult := wrap_for_grad rs.1 level
  let wrappedSaved := wrap_for_grad rs.2 level
  pure (wrappedResult, wrappedSaved, [wrappedSaved])

/-- `y = vmap(MySin)(x)` over a vector of scalars (custom.py:245), run from
the quiescent state. -/
def vmapMySin {R : Type} [CommRing R] (B : Backend R) (xs : List R) :
    Except Err (List R) × St :=
  functorch_vmap (MySin B 2) xs s0

/-- Modelled from the spec: `torch.autograd.grad(y.sum(), x)` (custom.py:248)
after `y = vmap(MySin)(x)`.  The forward pass recorded a level-0 boundary
node inside the batched rule, whose stored backward is `batch_bwd` over
`f_bwd` with the vmap layer (level 1, batch dim 0 of the rank-1 input)
captured by the rule, and whose stored saved value is the bare input vector.
Per spec §4.3, the engine invokes that backward with the output gradients —
ones for the summed primary output, zeros for the unused saved output — and
the reconstructed saved values, in the state the forward run left behind
(which still holds the side channel). -/
def vmapMySinGrad {R : Type} [CommRing R] (B : Backend R) (xs : List R) :
    Except Err (V R) × St :=
  match vmapMySin B xs with
  | (Except.ok ys, s1) =>
    batch_bwd (Layer.mk "vmap" 1) 0 1 f_bwd
      (vfill 1 (V.vec ys)) (vfill 0 (V.vec xs)) (V.vec xs) s1
  | (Except.error e, s1) => (Except.error e, s1)

/-- A computation is stack-balanced when it returns — successfully or with an
error — with the interpreter stack exactly as it found it. -/
def StackBal {α : Type} (m : M α) : Prop :=
  ∀ s : St, ((m s).2).stack = s.stack

/-- A rule preserves the stack whenever the forward and backward functions it
is given do. -/
def BalancedRule {R : Type} [CommRing R] (rule : Rule R) : Prop :=
  ∀ (fwd_fn : Fwd R) (bwd_fn : Bwd R),
    (∀ args, StackBal (fwd_fn args)) →
    (∀ gO gx x, StackBal (bwd_fn gO gx x)) →
    ∀ args, StackBal (rule fwd_fn bwd_fn args)

/-- A concrete rational backend used for closed-instance witnesses (the
backend is opaque, so any functions serve). -/
def Bq : Backend ℚ := { sinFn := fun q => q + 100, cosFn := fun _ => 55 }


theorem stackBal_pure {α : Type} (a : α) : StackBal (pure a : M α) := fun _ => rfl

theorem stackBal_throwM {α : Type} (e : Err) : StackBal (throwM e : M α) := fun _ => rfl

theorem stackBal_bind {α β : Type} {m : M α} {f : α → M β}
    (hm : StackBal m) (hf : ∀ a, StackBal (f a)) : StackBal (m >>= f) := by
  intro s
  have hm' := hm s
  show ((match m s with
        | (Except.ok a, s') => f a s'
        | (Except.error e, s') => (Except.error e, s')).2).stack = s.stack
  cases h : m s with
  | mk r s' =>
    rw [h] at hm'
    cases r with
    | ok a => exact (hf a s').trans hm'
    | error e => exact hm'

theorem stackBal_top_layer : StackBal top_layer := by
  intro s
  cases h : s.stack with
  | nil => simp [top_layer, h]
  | cons l rest => simp [top_layer, h]

theorem stackBal_are_transforms_active : StackBal are_transforms_active := fun _ => rfl

theorem stackBal_get_topmost_layer : StackBal get_topmost_layer := by
  apply stackBal_bind stackBal_are_transforms_active
  intro a
  cases a with
  | false => exact stackBal_pure _
  | true =>
    apply stackBal_bind stackBal_top_layer
    intro l
    by_cases h : l.kind = "" <;> simp [h] <;> exact stackBal_pure _

theorem stackBal_getSideChannel : StackBal getSideChannel := fun _ => rfl

theorem stackBal_setSideChannel (l : Option (List Nat)) : StackBal (setSideChannel l) :=
  fun _ => rfl

theorem stackBal_enable_grad {α : Type} {body : M α} (h : StackBal body) :
    StackBal (enable_grad body) := by
  intro s
  show ((match body { s with gradEnabled := true } with
        | (r, s') => (r, { s' with gradEnabled := s.gradEnabled })).2).stack = s.stack
  cases hb : body { s with gradEnabled := true } with
  | mk r s' =>
    have h2 := h { s with gradEnabled := true }
    rw [hb] at h2
    exact h2

theorem stackBal_pop_stack {α : Type} {body : Layer → M α}
    (h : ∀ dl, StackBal (body dl)) : StackBal (pop_stack body) := by
  intro s
  obtain ⟨st, g, sc⟩ := s
  cases st with
  | nil => rfl
  | cons l rest =>
    cases hb : body l { stack := rest, gradEnabled := g, sideChannel := sc } with
    | mk r s'' =>
      have h2 := h l { stack := rest, gradEnabled := g, sideChannel := sc }
      rw [hb] at h2
      show ((match body l { stack := rest, gradEnabled := g, sideChannel := sc } with
            | (r, s'') => (r, (pushTop l s'').2)).2).stack = l :: rest
      rw [hb]
      show l :: s''.stack = l :: rest
      rw [h2]

theorem stackBal_push_stack {α : Type} {dl : Layer} {body : Nat → M α}
    (h : ∀ lv, StackBal (body lv)) : StackBal (push_stack dl body) := by
  intro s
  obtain ⟨st, g, sc⟩ := s
  cases hb : body dl.level { stack := dl :: st, gradEnabled := g, sideChannel := sc } with
  | mk r s₂ =>
    have h2 := h dl.level { stack := dl :: st, gradEnabled := g, sideChannel := sc }
    rw [hb] at h2
    have hstack : s₂.stack = dl :: st := h2
    show ((match body dl.level { stack := dl :: st, gradEnabled := g, sideChannel := sc } with
          | (r, s₂) =>
            match popTop s₂ with
            | (Except.ok _, s₃) => (r, s₃)
            | (Except.error e, s₃) => (Except.error e, s₃)).2).stack = st
    rw [hb]
    show ((match popTop s₂ with
          | (Except.ok _, s₃) => (r, s₃)
          | (Except.error e, s₃) => (Except.error e, s₃)).2).stack = st
    have hpop : popTop s₂ = (Except.ok dl, { s₂ with stack := st }) := by
      show (match s₂.stack with
            | [] => (Except.error Err.emptyStack, s₂)
            | l :: rest => (Except.ok l, { s₂ with stack := rest })) = _
      rw [hstack]
    rw [hpop]



theorem stackBal_batch_fwd {R : Type} [CommRing R] {dl : Layer} {bdim : Nat} {f : Fwd R}
    (hf : ∀ args, StackBal (f args)) : ∀ args, StackBal (batch_fwd dl bdim f args) := by
  intro args
  cases args with
  | nil => exact stackBal_throwM _
  | cons a l =>
    cases l with
    | cons b l2 => cases a <;> exact stackBal_throwM _
    | nil =>
      cases a with
      | nonTensor => exact stackBal_throwM _
      | tensor x =>
        apply stackBal_push_stack
        intro lv
        apply stackBal_bind (hf _)
        intro rr
        obtain ⟨r0, r1⟩ := rr
        cases unpackBatched r0 lv with
        | mk t0 b0 =>
          cases unpackBatched r1 lv with
          | mk t1 b1 =>
            apply stackBal_bind (stackBal_setSideChannel _)
            intro u
            exact stackBal_pure _

theorem stackBal_batch_bwd {R : Type} [CommRing R] {dl : Layer} {bdim level : Nat} {f : Bwd R}
    (hb : ∀ gO gx x, StackBal (f gO gx x)) :
    ∀ gO gx x, StackBal (batch_bwd dl bdim level f gO gx x) := by
  intro gO gx x
  apply stackBal_push_stack
  intro lv
  apply stackBal_bind stackBal_getSideChannel
  intro sc
  cases sc with
  | none => exact stackBal_throwM _
  | some l =>
    cases l with
    | nil => exact stackBal_throwM _
    | cons bO t =>
      cases t with
      | nil => exact stackBal_throwM _
      | cons bx t2 =>
        cases t2 with
        | cons c t3 => exact stackBal_throwM _
        | nil =>
          apply stackBal_bind (hb _ _ _)
          intro g
          cases unpackBatched g lv with
          | mk tt gb => exact stackBal_pure _

theorem stackBal_generate_forward {R : Type} [CommRing R] {callee : Rule R} {level : Nat}
    {fwd_fn : Fwd R} {bwd_fn : Bwd R}
    (hc : ∀ args, StackBal (callee fwd_fn bwd_fn args))
    (hf : ∀ args, StackBal (fwd_fn args)) :
    ∀ args, StackBal ((generate_autograd_function callee level fwd_fn bwd_fn).forward args) := by
  intro args
  by_cases h0 : level = 0
  · subst h0
    simp only [generate_autograd_function, if_pos]
    apply stackBal_bind (hf _)
    intro rr
    obtain ⟨r0, r1⟩ := rr
    exact stackBal_pure _
  · simp only [generate_autograd_function, if_neg h0]
    apply stackBal_bind
    · apply stackBal_pop_stack
      intro dl
      apply stackBal_enable_grad
      exact hc _
    · intro rs
      exact stackBal_pure _

theorem stackBal_autograd_apply {R : Type} [CommRing R] {callee : Rule R} {level : Nat}
    {fwd_fn : Fwd R} {bwd_fn : Bwd R}
    (hc : ∀ args, StackBal (callee fwd_fn bwd_fn args))
    (hf : ∀ args, StackBal (fwd_fn args))
    (hb : ∀ gO gx x, StackBal (bwd_fn gO gx x)) :
    ∀ args, StackBal (autograd_apply callee level fwd_fn bwd_fn args) := by
  intro args
  apply stackBal_bind (stackBal_generate_forward hc hf args)
  intro t
  obtain ⟨result, saved, ctx⟩ := t
  by_cases h0 : level = 0
  · simp only [h0, if_pos]
    exact stackBal_pure _
  · simp only [if_neg h0]
    apply stackBal_bind (hb _ _ _)
    intro dr
    apply stackBal_bind (hb _ _ _)
    intro ds
    exact stackBal_pure _

theorem balancedRule_custom_vjp_torch {R : Type} [CommRing R] {callee : Rule R}
    (hc : BalancedRule callee) : BalancedRule (custom_vjp_torch callee) := by
  intro fwd_fn bwd_fn hf hb args
  exact stackBal_autograd_apply (hc fwd_fn bwd_fn hf hb) hf hb args

theorem balancedRule_custom_vjp_grad {R : Type} [CommRing R] {callee : Rule R}
    (hc : BalancedRule callee) : BalancedRule (custom_vjp_grad callee) := by
  intro fwd_fn bwd_fn hf hb args
  apply stackBal_bind stackBal_top_layer
  intro l
  exact stackBal_autograd_apply (hc fwd_fn bwd_fn hf hb) hf hb args

theorem balancedRule_custom_vjp_vmap {R : Type} [CommRing R] {callee : Rule R}
    (hc : BalancedRule callee) : BalancedRule (custom_vjp_vmap callee) := by
  intro fwd_fn bwd_fn hf hb args
  apply stackBal_bind stackBal_top_layer
  intro l
  cases args with
  | nil => exact stackBal_throwM _
  | cons a t =>
    cases t with
    | cons b t2 => cases a <;> exact stackBal_throwM _
    | nil =>
      cases a with
      | nonTensor => exact stackBal_throwM _
      | tensor x0 =>
        cases unpackBatched x0 l.level with
        | mk x bdim =>
          apply stackBal_bind
          · apply stackBal_pop_stack
            intro dl
            apply stackBal_bind (stackBal_setSideChannel _)
            intro u
            exact hc _ _ (stackBal_batch_fwd hf) (stackBal_batch_bwd hb) _
          · intro results
            apply stackBal_bind stackBal_getSideChannel
            intro sc
            cases sc with
            | none => exact stackBal_throwM _
            | some ll =>
              cases ll with
              | nil => exact stackBal_throwM _
              | cons b0 t3 =>
                cases t3 with
                | nil => exact stackBal_throwM _
                | cons b1 t4 =>
                  cases t4 with
                  | nil => exact stackBal_pure _
                  | cons c t5 => exact stackBal_throwM _

theorem balancedRule_custom_vjp {R : Type} [CommRing R] :
    ∀ fuel : Nat, BalancedRule (custom_vjp fuel : Rule R) := by
  intro fuel
  induction fuel with
  | zero => intro fwd_fn bwd_fn hf hb args; exact stackBal_throwM _
  | succ n ih =>
    intro fwd_fn bwd_fn hf hb args
    apply stackBal_bind stackBal_get_topmost_layer
    intro k
    show StackBal (match (custom_vjp_op (custom_vjp n)).rules_map k with
      | none => throwM (Err.unhandledTransform (custom_vjp_op (custom_vjp n)).name k)
      | some fn => fn fwd_fn bwd_fn args)
    by_cases hg : k = "grad"
    · simp only [custom_vjp_op, TransformableOperator.impl, hg, if_pos]
      exact balancedRule_custom_vjp_grad ih fwd_fn bwd_fn hf hb args
    · by_cases hv : k = "vmap"
      · simp only [custom_vjp_op, TransformableOperator.impl, hg, hv, if_neg, if_pos,
          reduceIte]
        exact balancedRule_custom_vjp_vmap ih fwd_fn bwd_fn hf hb args
      · by_cases ht : k = "torch"
        · simp only [custom_vjp_op, TransformableOperator.impl, hg, hv, ht, reduceIte]
          exact balancedRule_custom_vjp_torch ih fwd_fn bwd_fn hf hb args
        · simp only [custom_vjp_op, TransformableOperator.impl, hg, hv, ht, reduceIte]
          exact stackBal_throwM _


theorem stackBal_f_fwd {R : Type} [CommRing R] (B : Backend R) :
    ∀ args, StackBal (f_fwd B args) := by
  intro args
  cases args with
  | nil => exact stackBal_throwM _
  | cons a t =>
    cases t with
    | cons b t2 => cases a <;> exact stackBal_throwM _
    | nil =>
      cases a with
      | tensor x => exact stackBal_pure _
      | nonTensor => exact stackBal_throwM _

theorem stackBal_f_bwd {R : Type} [CommRing R] :
    ∀ gO gx x : V R, StackBal (f_bwd gO gx x) := fun _ _ _ => stackBal_pure _

/-- Claim C1: for every dispatch of the transformable operator — including
dispatches whose rule body raises — the interpreter stack depth and contents
after the call equal those before the call, provided the forward/backward
functions handed to the operator are themselves stack-balanced (as every
function of this program is): `pop_stack` re-pushes the same popped layer on
every exit path and `push_stack` pops on every exit path, so every rule
restores the stack on success and on error alike. -/
theorem custom_vjp_stack_balanced {R : Type} [CommRing R] (fuel : Nat)
    (fwd_fn : Fwd R) (bwd_fn : Bwd R)
    (hf : ∀ args, StackBal (fwd_fn args))
    (hb : ∀ gO gx x, StackBal (bwd_fn gO gx x))
    (args : List (PyObj R)) (s : St) :
    ((custom_vjp fuel fwd_fn bwd_fn args s).2).stack = s.stack :=
  balancedRule_custom_vjp fuel fwd_fn bwd_fn hf hb args s

/-- Witness for C1 at a concrete erroring dispatch: under an unhandled
`"jvp"` layer the call fails, and the stack is exactly as before. -/
theorem custom_vjp_stack_balanced_witness :
    ((custom_vjp 2 (f_fwd Bq) f_bwd [PyObj.tensor (V.scalar (3 : ℚ))]
        { stack := [Layer.mk "jvp" 7], gradEnabled := false, sideChannel := none }).2).stack
      = [Layer.mk "jvp" 7] :=
  custom_vjp_stack_balanced 2 (f_fwd Bq) f_bwd (stackBal_f_fwd Bq) stackBal_f_bwd
    [PyObj.tensor (V.scalar (3 : ℚ))]
    { stack := [Layer.mk "jvp" 7], gradEnabled := false, sideChannel := none }


/-- Unfolding lemma for the monad's bind at a state. -/
theorem M_bind_apply {α β : Type} (m : M α) (f : α → M β) (s : St) :
    (m >>= f) s = match m s with
      | (Except.ok a, s') => f a s'
      | (Except.error e, s') => (Except.error e, s') := rfl

/-- Unfolding lemma for the monad's pure at a state. -/
theorem M_pure_apply {α : Type} (a : α) (s : St) : (pure a : M α) s = (Except.ok a, s) := rfl

/-- Claim C2: for every level strictly greater than 0, the differentiation
boundary built at that level has a forward pass equal to the spec's
composition: (a) strip one level of transform-wrapping from each operand,
(b) temporarily remove the top stack layer, (c) re-enter the operator
dispatch recursively on the unwrapped operands inside an
explicitly-differentiable evaluation context, (d) re-wrap the primary result
and the saved values at that level, (e) flatten and store the saved values,
and return the wrapped primary result. -/
theorem customFuncB_forward_matches_spec {R : Type} [CommRing R] (callee : Rule R)
    (level : Nat) (h : 0 < level) (fwd_fn : Fwd R) (bwd_fn : Bwd R)
    (args : List (PyObj R)) (s : St) :
    (generate_autograd_function callee level fwd_fn bwd_fn).forward args s
      = boundary_forward_spec callee level fwd_fn bwd_fn args s := by
  cases level with
  | zero => exact absurd h (lt_irrefl 0)
  | succ k => rfl

/-- Witness for C2 at level 1 on a concrete grad-wrapped operand under a
grad layer. -/
theorem customFuncB_forward_matches_spec_witness :
    0 < 1 ∧
      (generate_autograd_function (custom_vjp 1) 1 (f_fwd Bq) f_bwd).forward
          [PyObj.tensor (V.dual 1 (V.scalar (3 : ℚ)) (V.scalar 1))]
          { stack := [Layer.mk "grad" 1], gradEnabled := false, sideChannel := none }
        = boundary_forward_spec (custom_vjp 1) 1 (f_fwd Bq) f_bwd
          [PyObj.tensor (V.dual 1 (V.scalar (3 : ℚ)) (V.scalar 1))]
          { stack := [Layer.mk "grad" 1], gradEnabled := false, sideChannel := none } :=
  ⟨Nat.zero_lt_one, customFuncB_forward_matches_spec _ 1 Nat.zero_lt_one _ _ _ _⟩

/-- Counterexample to C4: with no transform active, the value the dispatch
returns at the concrete operand 3 is the full pair `(sin 3, 3)` (with the
witness backend, `(3 + 100, 3)`), so the auxiliary saved operand is part of
the returned value and differs from the primary result — the claim that only
the primary result is returned (saved values not part of it) is false on the
code; `MySin` (custom.py:184) strips the saved component itself with `[0]`. -/
theorem plain_rule_returns_pair_counterexample :
    (custom_vjp 1 (f_fwd Bq) f_bwd [PyObj.tensor (V.scalar (3 : ℚ))] s0).1
        = Except.ok (V.scalar ((3 : ℚ) + 100), V.scalar (3 : ℚ)) ∧
      V.scalar ((3 : ℚ) + 100) ≠ V.scalar (3 : ℚ) := by
  constructor
  · rfl
  · intro hcontra
    injection hcontra with h'
    norm_num at h'

/-- Claim C4, amended: for every dispatch made while no transform is active,
the returned value is exactly `fwd_fn(operands)` — the full (primary result,
saved values) pair produced by the forward pass, the saved values included;
the primary result is its first component, which callers such as `MySin`
extract by projection. -/
theorem plain_rule_returns_forward_pair {R : Type} [CommRing R]
    (fwd_fn : Fwd R) (bwd_fn : Bwd R) (args : List (PyObj R)) (n : Nat)
    (s : St) (h : s.stack = []) :
    custom_vjp (n+1) fwd_fn bwd_fn args s = fwd_fn args s := by
  obtain ⟨st, g, sc⟩ := s
  change st = [] at h
  subst h
  have step1 : custom_vjp (n+1) fwd_fn bwd_fn args
      { stack := [], gradEnabled := g, sideChannel := sc }
      = ((fwd_fn args >>= (fun rr => pure (rr.1, rr.2, ([rr.2] : List (V R))))) >>=
          (fun t => pure (t.1, t.2.1)))
        { stack := [], gradEnabled := g, sideChannel := sc } := rfl
  rw [step1]
  cases hr : fwd_fn args { stack := [], gradEnabled := g, sideChannel := sc } with
  | mk r s' =>
    cases r with
    | ok a => simp only [M_bind_apply, M_pure_apply, hr]
    | error e => simp only [M_bind_apply, M_pure_apply, hr]

/-- Witness for the amended C4 at a concrete operand in the quiescent
state. -/
theorem plain_rule_returns_forward_pair_witness :
    (s0.stack = []) ∧
      custom_vjp 1 (f_fwd Bq) f_bwd [PyObj.tensor (V.scalar (3 : ℚ))] s0
        = f_fwd Bq [PyObj.tensor (V.scalar (3 : ℚ))] s0 :=
  ⟨rfl, plain_rule_returns_forward_pair (f_fwd Bq) f_bwd _ 0 s0 rfl⟩

/-- Claim C5: for every dispatch whose top-of-stack kind has no registered
rule, the call fails with the error naming both the operator
(`"custom_vjp"`) and the unhandled kind, no rule is invoked (the error is
the immediate outcome), and the interpreter state — in particular the stack
— is left exactly unchanged. -/
theorem unregistered_kind_fails {R : Type} [CommRing R]
    (fwd_fn : Fwd R) (bwd_fn : Bwd R) (args : List (PyObj R)) (n : Nat)
    (k : String) (lvl : Nat) (rest : List Layer) (g : Bool) (sc : Option (List Nat))
    (h0 : k ≠ "") (h1 : k ≠ "torch") (h2 : k ≠ "vmap") (h3 : k ≠ "grad") :
    custom_vjp (n+1) fwd_fn bwd_fn args
        { stack := Layer.mk k lvl :: rest, gradEnabled := g, sideChannel := sc }
      = (Except.error (Err.unhandledTransform "custom_vjp" k),
         { stack := Layer.mk k lvl :: rest, gradEnabled := g, sideChannel := sc }) := by
  have e1 : custom_vjp (n+1) fwd_fn bwd_fn args
      { stack := Layer.mk k lvl :: rest, gradEnabled := g, sideChannel := sc }
      = (get_topmost_layer >>= fun a =>
          match (custom_vjp_op (custom_vjp n : Rule R)).rules_map a with
          | none => throwM (Err.unhandledTransform (custom_vjp_op (custom_vjp n : Rule R)).name a)
          | some fn => fn fwd_fn bwd_fn args)
        { stack := Layer.mk k lvl :: rest, gradEnabled := g, sideChannel := sc } := rfl
  rw [e1, M_bind_apply]
  have e2 : get_topmost_layer
      { stack := Layer.mk k lvl :: rest, gradEnabled := g, sideChannel := sc }
      = (if k = "" then (pure "torch" : M String) else pure k)
        { stack := Layer.mk k lvl :: rest, gradEnabled := g, sideChannel := sc } := rfl
  rw [e2, if_neg h0, M_pure_apply]
  simp only [custom_vjp_op, TransformableOperator.impl, if_neg h3, if_neg h2, if_neg h1]
  rfl

/-- Witness for C5 at the concrete unregistered kind `"jvp"`. -/
theorem unregistered_kind_fails_witness :
    ("jvp" ≠ "" ∧ "jvp" ≠ "torch" ∧ "jvp" ≠ "vmap" ∧ "jvp" ≠ "grad") ∧
      custom_vjp 1 (f_fwd Bq) f_bwd [PyObj.tensor (V.scalar (3 : ℚ))]
          { stack := [Layer.mk "jvp" 1], gradEnabled := false, sideChannel := none }
        = (Except.error (Err.unhandledTransform "custom_vjp" "jvp"),
           { stack := [Layer.mk "jvp" 1], gradEnabled := false, sideChannel := none }) :=
  ⟨⟨by decide, by decide, by decide, by decide⟩,
    unregistered_kind_fails (f_fwd Bq) f_bwd _ 0 "jvp" 1 [] false none
      (by decide) (by decide) (by decide) (by decide)⟩


/-- Claim C6: differentiating the composed custom operator at x = 0.123
yields the gradient 2 * 0.123 of the registered custom backward
(`gO * 2 * x + gx`), for every backend — in particular independent of the
backend's `sin`/`cos`, hence not `cos 0.123`: the custom rule overrides the
default chain rule. -/
theorem grad_MySin_uses_custom_rule (B : Backend ℚ) :
    (functorch_grad (MySin B 3) (V.scalar (0.123 : ℚ)) s0).1
      = Except.ok (V.scalar (2 * 0.123 : ℚ)) := by
  have e1 : (functorch_grad (MySin B 3) (V.scalar (0.123 : ℚ)) s0).1
      = Except.ok (V.scalar (((1 * 2) * (0.123 : ℚ) + 0) * 1)) := rfl
  have e2 : ((1 * 2) * (0.123 : ℚ) + 0) * 1 = 2 * 0.123 := by norm_num
  rw [e1, e2]

/-- Claim C7: for every input x, nesting the differentiated rule twice on
the example operator yields the constant second derivative 2. -/
theorem grad_grad_MySin_is_two {R : Type} [CommRing R] (B : Backend R) (x : R) :
    (functorch_grad (fun y => functorch_grad (MySin B 3) y) (V.scalar x) s0).1
      = Except.ok (V.scalar (2 : R)) := by
  have e1 : (functorch_grad (fun y => functorch_grad (MySin B 3) y) (V.scalar x) s0).1
      = Except.ok (V.scalar (((1 * 2) * (((0 * 2) * x + 1) * 1)) * 1)) := rfl
  have e2 : ((1 * 2) * (((0 * 2) * x + 1) * 1)) * 1 = (2 : R) := by ring
  rw [e1, e2]

/-- Claim C9: in the batched rule, after the recursive dispatch on the bare
operand returns, the final result (both components) is re-wrapped with
`_add_batch_dim` at the original outer batch dimension (0, the side-channel
entries recorded for this operator) and the original outer level (1). -/
theorem vmap_rule_rewraps_outer_level {R : Type} [CommRing R] (B : Backend R)
    (xs : List R) (g : Bool) (sc : Option (List Nat)) :
    custom_vjp 2 (f_fwd B) f_bwd [PyObj.tensor (V.batched 1 0 (V.vec xs))]
        { stack := [Layer.mk "vmap" 1], gradEnabled := g, sideChannel := sc }
      = (Except.ok (add_batch_dim (V.vec (xs.map B.sinFn)) 0 1,
                    add_batch_dim (V.vec xs) 0 1),
         { stack := [Layer.mk "vmap" 1], gradEnabled := g, sideChannel := some [0, 0] }) := rfl

/-- Claim C10: dispatch selects the plain (`"torch"`) rule not only when the
stack is empty — a top layer whose kind is the empty string also yields
`"torch"`, and a dispatch of the example operator under such a layer returns
the same value as the no-active-transform dispatch. -/
theorem empty_kind_dispatches_torch {R : Type} [CommRing R] (B : Backend R) (x : V R)
    (lvl : Nat) (rest : List Layer) (g : Bool) (sc : Option (List Nat)) :
    (get_topmost_layer
        { stack := Layer.mk "" lvl :: rest, gradEnabled := g, sideChannel := sc }).1
      = Except.ok "torch" ∧
    (get_topmost_layer { stack := [], gradEnabled := g, sideChannel := sc }).1
      = Except.ok "torch" ∧
    (custom_vjp 1 (f_fwd B) f_bwd [PyObj.tensor x]
        { stack := Layer.mk "" lvl :: rest, gradEnabled := g, sideChannel := sc }).1
      = (custom_vjp 1 (f_fwd B) f_bwd [PyObj.tensor x]
        { stack := [], gradEnabled := g, sideChannel := sc }).1 :=
  ⟨rfl, rfl, rfl⟩


/-- The batched backward's elementwise arithmetic collapses to `2 * x` per
element. -/
theorem c3_sum_grad_aux {R : Type} [CommRing R] (f : R → R) (xs : List R) :
    List.zipWith (fun a b => a + b)
      (List.zipWith (fun a b => a * b)
        (((xs.map f).map (fun _ => (1 : R))).map (fun a => a * 2)) xs)
      (xs.map (fun _ => (0 : R)))
    = xs.map (fun a => 2 * a) := by
  induction xs with
  | nil => rfl
  | cons a l ih =>
    simp only [List.map_cons, List.zipWith_cons_cons, ih]
    congr 1
    ring

/-- Claim C3: for every vector input, the batched (vmap) rule yields outputs
elementwise-equal to the plain rule applied per element (`sin` elementwise),
and the engine-contract gradient of the sum of the batched outputs — the
recorded boundary's backward invoked with ones/zeros seeds — equals the
elementwise per-element gradients `2 * x`. -/
theorem vmap_rule_elementwise_and_grad {R : Type} [CommRing R] (B : Backend R) (xs : List R) :
    (∀ x : R, (MySin B 1 (V.scalar x) s0).1 = Except.ok (V.scalar (B.sinFn x))) ∧
    (vmapMySin B xs).1 = Except.ok (xs.map B.sinFn) ∧
    (vmapMySinGrad B xs).1 = Except.ok (V.vec (xs.map (fun a => 2 * a))) := by
  refine ⟨fun x => rfl, rfl, ?_⟩
  have e1 : (vmapMySinGrad B xs).1
      = Except.ok (V.vec (List.zipWith (fun a b => a + b)
          (List.zipWith (fun a b => a * b)
            (((xs.map B.sinFn).map (fun _ => (1 : R))).map (fun a => a * 2)) xs)
          (xs.map (fun _ => (0 : R))))) := rfl
  rw [e1, c3_sum_grad_aux]

/-- Claim C8: invoked under a transform layer, the batched rule fails with
the assertion error (leaving the state unchanged) for every operand list
whose length is not 1 and for a single non-tensor operand, while under the
stated precondition — exactly one tensor operand carrying a batch-dimension
tag — it proceeds past the asserts and completes. -/
theorem vmap_rule_operand_validation {R : Type} [CommRing R] (callee : Rule R)
    (fwd_fn : Fwd R) (bwd_fn : Bwd R) (s : St) (l : Layer) (rest : List Layer)
    (hs : s.stack = l :: rest) :
    (∀ args : List (PyObj R), args.length ≠ 1 →
        custom_vjp_vmap callee fwd_fn bwd_fn args s = (Except.error Err.assertionError, s)) ∧
    (custom_vjp_vmap callee fwd_fn bwd_fn [PyObj.nonTensor] s
        = (Except.error Err.assertionError, s)) ∧
    (∀ (B : Backend R) (xs : List R) (g : Bool) (sc : Option (List Nat)),
        custom_vjp_vmap (custom_vjp 1) (f_fwd B) f_bwd
            [PyObj.tensor (V.batched 1 0 (V.vec xs))]
            { stack := [Layer.mk "vmap" 1], gradEnabled := g, sideChannel := sc }
          = (Except.ok (add_batch_dim (V.vec (xs.map B.sinFn)) 0 1,
                        add_batch_dim (V.vec xs) 0 1),
             { stack := [Layer.mk "vmap" 1], gradEnabled := g, sideChannel := some [0, 0] })) := by
  obtain ⟨st, g, sc⟩ := s
  change st = l :: rest at hs
  subst hs
  refine ⟨?_, rfl, fun B xs g' sc' => rfl⟩
  intro args h
  cases args with
  | nil => rfl
  | cons a t =>
    cases t with
    | nil =>
      cases a with
      | tensor x => exact absurd rfl h
      | nonTensor => rfl
    | cons b t2 => cases a <;> rfl

/-- Witness for C8: the empty operand list fails the arity assert with the
state unchanged. -/
theorem vmap_rule_operand_validation_witness :
    ([] : List (PyObj ℚ)).length ≠ 1 ∧
      custom_vjp_vmap (custom_vjp 1) (f_fwd Bq) f_bwd ([] : List (PyObj ℚ))
          { stack := [Layer.mk "vmap" 1], gradEnabled := false, sideChannel := none }
        = (Except.error Err.assertionError,
           { stack := [Layer.mk "vmap" 1], gradEnabled := false, sideChannel := none }) :=
  ⟨by decide,
    (vmap_rule_operand_validation (custom_vjp 1) (f_fwd Bq) f_bwd
        { stack := [Layer.mk "vmap" 1], gradEnabled := false, sideChannel := none }
        (Layer.mk "vmap" 1) [] rfl).1 [] (by decide)⟩


end CustomVJP
